import Mathlib

/-!
Verification of the dependency-aware process supervisor in `ai-runlevel.mjs`
(repository Loopshape/wsl-runtime).

The embedding below is a shallow model of the orchestrator:

* `DEPENDENCIES` is the static dependency table (lines 42-52 of the source).
* `checkOllamaReady` and `gateLoop` model the readiness gate: the
  `checkOllamaReady` function (lines 63-78) and the retry loop in `main`
  (lines 152-167).  The outcome of the HTTP health check at each call is an
  oracle `httpOk : Nat -> Bool` indexed by the current retry counter; the
  latch file is a boolean (it exists or it does not), and the only operation
  the supervisor ever performs on it is `writeFileSync` (creation).
* The per-worker supervisor loop `startAgent/spawnLoop` (lines 84-142) is
  modelled as a labelled transition system.  Node.js is single threaded, so
  the atomic units are the synchronous segments between `await` points: one
  loop iteration from the top of the `while` (dependency check, script
  existence check and, when both pass, `spawn` plus `startedAgents.add`) is a
  single atomic step; the `exit` event handler (which deletes the agent from
  `startedAgents` and only then schedules the 2s restart timer) is another;
  the various sleeps are suspension points at which other loops interleave.
-/

namespace AiRunlevel

/-- Point update of a map from agent names, used for the mutable per-agent
state (`phase`, `startedAgents` membership, live process count). -/
def upd {α : Type} (f : String → α) (a : String) (v : α) : String → α :=
  fun n => if n = a then v else f n

@[simp] theorem upd_same {α : Type} (f : String → α) (a : String) (v : α) :
    upd f a v a = v := by
  simp [upd]

@[simp] theorem upd_other {α : Type} (f : String → α) (a b : String) (v : α)
    (h : b ≠ a) : upd f a v b = f b := by
  simp [upd, h]

/-! ### The static dependency table (source lines 42-55) -/

/-- The `DEPENDENCIES` object literal: agent names mapped to the list of
agents that must be started before the agent itself launches. -/
def DEPENDENCIES : List (String × List String) :=
  [ ("CORE", []),
    ("WAVE", ["CORE"]),
    ("LOOP", ["CORE"]),
    ("COIN", ["CORE"]),
    ("SIGN", ["CORE"]),
    ("WORK", ["CORE", "LOOP"]),
    ("CUBE", ["CORE", "WAVE"]),
    ("CODE", ["CORE", "WORK"]),
    ("LINE", ["CORE", "SIGN"]) ]

/-- `Object.keys(table)`: the agent names, in table order.  The source binds
`AGENTS = Object.keys(DEPENDENCIES)` with no further processing. -/
def objectKeys (table : List (String × List String)) : List String :=
  table.map Prod.fst

/-- `AGENTS` from the source (line 54). -/
def AGENTS : List String := objectKeys DEPENDENCIES

/-- `DEPENDENCIES[agentName]` (line 91): lookup of the declared dependency
list of an agent in a table.  Only keys of the table are ever looked up by
the source. -/
def depsOf (table : List (String × List String)) (a : String) : List String :=
  ((table.find? (fun p => p.1 == a)).map Prod.snd).getD []

/-- Module-load-time graph construction as the source performs it: the table
is a static object literal and startup merely computes `Object.keys`.  There
is no validation of any kind and no failure path. -/
def buildGraph (table : List (String × List String)) : List String :=
  objectKeys table

/-- Transitive dependency reachability with explicit fuel: `reachesDep table
fuel a b` holds when a dependency chain of length at most `fuel` leads from
`a` to `b`.  Used only to state (de)cyclicity of concrete tables. -/
def reachesDep (table : List (String × List String)) : Nat → String → String → Bool
  | 0, _, _ => false
  | fuel + 1, a, b =>
      (depsOf table a).any (fun d => d == b || reachesDep table fuel d b)

/-- A table has a cycle when some key transitively depends on itself.  Fuel
`table.length` suffices for a cycle through distinct keys. -/
def hasCycle (table : List (String × List String)) : Bool :=
  (objectKeys table).any (fun a => reachesDep table table.length a a)

/-! ### The readiness gate (source lines 63-78 and 152-167) -/

/-- `checkOllamaReady`: returns `true` when the HTTP health check succeeds,
otherwise falls back to `fs.existsSync(OLLAMA_LATCH)`.  `httpOk` is the
outcome of the HTTP probe of this call, `latch` whether the latch file
exists. -/
def checkOllamaReady (httpOk : Bool) (latch : Bool) : Bool :=
  httpOk || latch

/-- The retry loop of `main` (lines 152-167).  `httpOk r` is the outcome of
the HTTP probe of the call made when the retry counter equals `r`.  On a
failed check the counter is incremented and, once `retries > 15`, the latch
file is written (`writeFileSync(OLLAMA_LATCH, "LATCH_BYPASS")`).  The result
is `some (attempts, latch)` when the loop exits after `attempts` calls with
final latch state `latch`; `fuel` bounds the recursion depth. -/
def gateLoop (httpOk : Nat → Bool) : Nat → Nat → Bool → Option (Nat × Bool)
  | 0, _, _ => none
  | fuel + 1, retries, latch =>
      if checkOllamaReady (httpOk retries) latch then
        some (retries + 1, latch)
      else
        let retries' := retries + 1
        let latch' := if retries' > 15 then true else latch
        gateLoop httpOk fuel retries' latch'

/-- The gate as `main` invokes it: retry counter starts at `0`; fuel 18 is
enough because the latch is forced after 16 failed attempts, letting call 17
succeed. -/
def awaitOllama (httpOk : Nat → Bool) (latch0 : Bool) : Option (Nat × Bool) :=
  gateLoop httpOk 18 0 latch0

/-! ### The per-worker supervisor loop (source lines 84-142) -/

/-- Where a supervisor loop currently is, between `await` suspension points:
`waiting` is the top of the `while (true)` loop, `depSleep` the
`await sleep(1000)` after a failed dependency check, `scriptSleep` the
`await sleep(5000)` after a missing launch target, `running` the suspension
on the exit promise of a live child process, and `restartDelay` the 2s
`setTimeout` scheduled by the exit handler. -/
inductive Phase where
  | waiting
  | depSleep
  | scriptSleep
  | running
  | restartDelay
deriving DecidableEq, Repr

/-- Global supervisor state: each agent's loop phase, the shared
`startedAgents` set (as its membership function) and, per agent, the number
of live child process handles its loop owns. -/
structure SysState where
  phase : String → Phase
  startedAgents : String → Bool
  procCount : String → Nat

/-- State at the start of phase 2 of `main`: every loop is at the top of its
`while`, `startedAgents = new Set()` is empty, no child process exists. -/
def initState : SysState :=
  { phase := fun _ => Phase.waiting
    startedAgents := fun _ => false
    procCount := fun _ => 0 }

/-- Line 92 of the source:
`deps.every(dep => startedAgents.has(dep))`. -/
def allDepsStarted (table : List (String × List String)) (a : String)
    (started : String → Bool) : Bool :=
  (depsOf table a).all (fun dep => started dep)

/-- Outcome of one iteration of the `while` body, before it suspends. -/
inductive BodyOutcome where
  | waitDeps
  | scriptMissing
  | spawned
deriving DecidableEq, Repr

/-- The synchronous part of one `spawnLoop` iteration (lines 89-128),
translated clause for clause: first the dependency check (`continue` into
`sleep(1000)` on failure), then `fs.existsSync(script)` (logged `continue`
into `sleep(5000)` on failure), else the spawn.  `ex` is the answer
`existsSync` would give; it is consulted only in the second clause. -/
def loopBody (table : List (String × List String)) (a : String)
    (started : String → Bool) (ex : Bool) : BodyOutcome :=
  if !(allDepsStarted table a started) then BodyOutcome.waitDeps
  else if !ex then BodyOutcome.scriptMissing
  else BodyOutcome.spawned

/-- `setPhase s a p` moves agent `a`'s loop to phase `p`, leaving everything
else untouched. -/
def setPhase (s : SysState) (a : String) (p : Phase) : SysState :=
  { s with phase := upd s.phase a p }

/-- The spawn segment (lines 108-128): `spawn` hands the loop one more live
child handle, `startedAgents.add(agentName)` marks the agent live, and the
loop suspends on the exit promise.  No `await` separates these in the
source, so they form one atomic update. -/
def spawnUpdate (s : SysState) (a : String) : SysState :=
  { phase := upd s.phase a Phase.running
    startedAgents := upd s.startedAgents a true
    procCount := upd s.procCount a (s.procCount a + 1) }

/-- Effect of one loop iteration of agent `a` on the global state. -/
def applyBody (table : List (String × List String)) (a : String) (ex : Bool)
    (s : SysState) : SysState :=
  match loopBody table a s.startedAgents ex with
  | BodyOutcome.waitDeps => setPhase s a Phase.depSleep
  | BodyOutcome.scriptMissing => setPhase s a Phase.scriptSleep
  | BodyOutcome.spawned => spawnUpdate s a

/-- Effect of the `exit` handler (lines 131-137): the child is gone,
`startedAgents.delete(agentName)` runs synchronously inside the handler, and
only then is the 2s restart timer scheduled. -/
def exitUpdate (s : SysState) (a : String) : SysState :=
  { phase := upd s.phase a Phase.restartDelay
    startedAgents := upd s.startedAgents a false
    procCount := upd s.procCount a (s.procCount a - 1) }

/-- Which loop acts in a step, and how.  `loopIter a ex` is one pass through
the `while` body of agent `a` with `existsSync` answering `ex`; the `wake`
labels are the ends of the three sleeps; `procExit a code` is the exit event
of `a`'s child process with exit code `code`. -/
inductive Label where
  | loopIter (a : String) (ex : Bool)
  | wakeDep (a : String)
  | wakeScript (a : String)
  | procExit (a : String) (code : Int)
  | wakeRestart (a : String)
deriving DecidableEq, Repr

/-- The agent whose loop performs a step. -/
def Label.agent : Label → String
  | Label.loopIter a _ => a
  | Label.wakeDep a => a
  | Label.wakeScript a => a
  | Label.procExit a _ => a
  | Label.wakeRestart a => a

/-- Interleaving semantics of the supervisor: at each step, one agent's loop
runs one of its atomic segments.  `loopIter` requires the agent to be a key
of the table because `main` starts one loop per element of `AGENTS` and no
other. -/
inductive Step (table : List (String × List String)) :
    SysState → Label → SysState → Prop where
  | loopIter (a : String) (ex : Bool) (s : SysState)
      (hph : s.phase a = Phase.waiting) (hmem : a ∈ objectKeys table) :
      Step table s (Label.loopIter a ex) (applyBody table a ex s)
  | wakeDep (a : String) (s : SysState) (hph : s.phase a = Phase.depSleep) :
      Step table s (Label.wakeDep a) (setPhase s a Phase.waiting)
  | wakeScript (a : String) (s : SysState)
      (hph : s.phase a = Phase.scriptSleep) :
      Step table s (Label.wakeScript a) (setPhase s a Phase.waiting)
  | procExit (a : String) (code : Int) (s : SysState)
      (hph : s.phase a = Phase.running) :
      Step table s (Label.procExit a code) (exitUpdate s a)
  | wakeRestart (a : String) (s : SysState)
      (hph : s.phase a = Phase.restartDelay) :
      Step table s (Label.wakeRestart a) (setPhase s a Phase.waiting)

/-- States the supervisor can be in after any interleaving of steps. -/
inductive Reachable (table : List (String × List String)) : SysState → Prop where
  | init : Reachable table initState
  | step {s : SysState} {l : Label} {s' : SysState} :
      Reachable table s → Step table s l s' → Reachable table s'

/-- Reachability along traces whose labels all satisfy `P` (used to express
environment assumptions such as a launch target that never exists). -/
inductive ReachableW (table : List (String × List String)) (P : Label → Prop) :
    SysState → Prop where
  | init : ReachableW table P initState
  | step {s : SysState} {l : Label} {s' : SysState} :
      ReachableW table P s → Step table s l s' → P l → ReachableW table P s'

/-- Reading the `startedAgents` set (`startedAgents.has` over all names). -/
def snapshot (s : SysState) : String → Bool :=
  s.startedAgents

/-- A step is a registry mutation when it executes `startedAgents.add`
(a loop iteration whose body reaches the spawn) or `startedAgents.delete`
(every exit handler). -/
def isRegistryMutation (table : List (String × List String)) (s : SysState) :
    Label → Prop
  | Label.loopIter a ex => loopBody table a s.startedAgents ex = BodyOutcome.spawned
  | Label.procExit _ _ => True
  | _ => False

/-- A sequence of steps none of which mutates the registry. -/
inductive StepsNoMut (table : List (String × List String)) :
    SysState → SysState → Prop where
  | refl (s : SysState) : StepsNoMut table s s
  | cons {s : SysState} {l : Label} {s₁ s' : SysState} :
      Step table s l s₁ → ¬ isRegistryMutation table s l →
      StepsNoMut table s₁ s' → StepsNoMut table s s'

/-! ### Basic lemmas about the state updates -/

@[simp] theorem setPhase_startedAgents (s : SysState) (a : String) (p : Phase) :
    (setPhase s a p).startedAgents = s.startedAgents := rfl

@[simp] theorem setPhase_procCount (s : SysState) (a : String) (p : Phase) :
    (setPhase s a p).procCount = s.procCount := rfl

theorem setPhase_phase (s : SysState) (a b : String) (p : Phase) :
    (setPhase s a p).phase b = if b = a then p else s.phase b := rfl

theorem spawnUpdate_phase (s : SysState) (a b : String) :
    (spawnUpdate s a).phase b = if b = a then Phase.running else s.phase b := rfl

theorem spawnUpdate_startedAgents (s : SysState) (a b : String) :
    (spawnUpdate s a).startedAgents b = if b = a then true else s.startedAgents b := rfl

theorem spawnUpdate_procCount (s : SysState) (a b : String) :
    (spawnUpdate s a).procCount b =
      if b = a then s.procCount a + 1 else s.procCount b := rfl

theorem exitUpdate_phase (s : SysState) (a b : String) :
    (exitUpdate s a).phase b = if b = a then Phase.restartDelay else s.phase b := rfl

theorem exitUpdate_startedAgents (s : SysState) (a b : String) :
    (exitUpdate s a).startedAgents b = if b = a then false else s.startedAgents b := rfl

theorem exitUpdate_procCount (s : SysState) (a b : String) :
    (exitUpdate s a).procCount b =
      if b = a then s.procCount a - 1 else s.procCount b := rfl

/-- Characterisation of the spawn branch of the loop body: it is reached
exactly when the dependency check passed and the launch target exists. -/
theorem loopBody_eq_spawned {table : List (String × List String)} {a : String}
    {started : String → Bool} {ex : Bool} :
    loopBody table a started ex = BodyOutcome.spawned ↔
      allDepsStarted table a started = true ∧ ex = true := by
  unfold loopBody
  cases h : allDepsStarted table a started <;> cases ex <;> simp

theorem loopBody_eq_waitDeps {table : List (String × List String)} {a : String}
    {started : String → Bool} {ex : Bool} :
    loopBody table a started ex = BodyOutcome.waitDeps ↔
      allDepsStarted table a started = false := by
  unfold loopBody
  cases h : allDepsStarted table a started <;> cases ex <;> simp

theorem loopBody_eq_scriptMissing {table : List (String × List String)}
    {a : String} {started : String → Bool} {ex : Bool} :
    loopBody table a started ex = BodyOutcome.scriptMissing ↔
      allDepsStarted table a started = true ∧ ex = false := by
  unfold loopBody
  cases h : allDepsStarted table a started <;> cases ex <;> simp

/-! ### Readiness-gate lemmas -/

/-- The gate never un-writes the latch: if the latch file exists when
`gateLoop` is entered, it still exists when the loop returns.  (The only
filesystem operation the supervisor performs on the latch is
`writeFileSync`; nothing ever deletes it.) -/
theorem gateLoop_latch_monotone (httpOk : Nat → Bool) :
    ∀ (fuel retries n : Nat) (l : Bool),
      gateLoop httpOk fuel retries true = some (n, l) → n = retries + 1 ∧ l = true := by
  intro fuel retries n l h
  cases fuel with
  | zero => exact absurd h (by simp [gateLoop])
  | succ fuel =>
      simp [gateLoop, checkOllamaReady] at h
      exact ⟨h.1.symm, h.2⟩

/-! ### Claim theorems -/

/-- Claim C5: behaviour of the readiness gate.  With a health check that
fails on every call, the retry counter reaches the configured limit
(`retries > 15`), the marker latch is force-written, and the very next call
succeeds through the latch: the gate returns after 17 attempts with the
marker in place.  With a health check that first succeeds on its third call
(the probe at retry counter 2), the gate returns after exactly three
attempts and the latch is never created. -/
theorem readiness_gate_retry_behavior :
    awaitOllama (fun _ => false) false = some (17, true) ∧
    awaitOllama (fun r => decide (2 ≤ r)) false = some (3, false) :=
  ⟨rfl, rfl⟩

/-- Claim C7: a stale marker file short-circuits the gate.  If the latch
exists when the gate is invoked, the very first `checkOllamaReady` call
returns `true` through the `fs.existsSync` fallback — whatever the HTTP
health probe reports — so the gate returns ready after one attempt; and the
gate never deletes the latch (its only latch operation is `writeFileSync`),
so the latch still exists on return. -/
theorem stale_latch_short_circuit :
    (∀ httpOk : Nat → Bool, awaitOllama httpOk true = some (1, true)) ∧
    (∀ (httpOk : Nat → Bool) (fuel retries n : Nat) (l : Bool),
        gateLoop httpOk fuel retries true = some (n, l) → l = true) := by
  constructor
  · intro httpOk
    simp [awaitOllama, gateLoop, checkOllamaReady]
  · intro httpOk fuel retries n l h
    exact (gateLoop_latch_monotone httpOk fuel retries n l h).2

/-- Witness for C7 at a concrete input: the health probe always reports
not-ready, the latch is present, and the gate returns ready at once with
the latch intact. -/
theorem stale_latch_short_circuit_witness :
    awaitOllama (fun _ => false) true = some (1, true) ∧ true = true :=
  ⟨stale_latch_short_circuit.1 (fun _ => false),
   stale_latch_short_circuit.2 (fun _ => false) 18 0 1 true rfl⟩

/-- Claim C10: in each loop iteration the dependency check runs strictly
before the launch-target check.  When some declared dependency is not live
the body ends in the 1s dependency wait whatever `fs.existsSync` would
answer — the script test is unreachable, so no missing-script message is
logged; dually, reaching the missing-script branch (the logged 5s retry)
forces the dependency check to have passed. -/
theorem deps_checked_before_script (table : List (String × List String))
    (a : String) (started : String → Bool) (ex : Bool) :
    (allDepsStarted table a started = false →
        loopBody table a started ex = BodyOutcome.waitDeps ∧
        loopBody table a started ex = loopBody table a started (!ex)) ∧
    (loopBody table a started ex = BodyOutcome.scriptMissing →
        allDepsStarted table a started = true) := by
  constructor
  · intro h
    have h1 : loopBody table a started ex = BodyOutcome.waitDeps :=
      loopBody_eq_waitDeps.mpr h
    have h2 : loopBody table a started (!ex) = BodyOutcome.waitDeps :=
      loopBody_eq_waitDeps.mpr h
    exact ⟨h1, h1.trans h2.symm⟩
  · intro h
    exact (loopBody_eq_scriptMissing.mp h).1

/-- Witness for C10: agent `WAVE` with nothing live yet — its dependency
`CORE` is absent, so the iteration waits on dependencies and ignores the
(missing) launch target. -/
theorem deps_checked_before_script_witness :
    loopBody DEPENDENCIES "WAVE" (fun _ => false) false = BodyOutcome.waitDeps ∧
    loopBody DEPENDENCIES "WAVE" (fun _ => false) false =
      loopBody DEPENDENCIES "WAVE" (fun _ => false) true :=
  (deps_checked_before_script DEPENDENCIES "WAVE" (fun _ => false) false).1 (by decide)

/-- Claim C1: a worker only ever enters the running state (its process is
only ever spawned) at a launch decision where its dependency check passed,
and that check is exactly membership of every declared dependency in the
live `startedAgents` set: any step that moves agent `a` from a non-running
phase into `running` is a loop iteration whose pre-state satisfied
`deps.every(dep => startedAgents.has(dep))`, and it spawns exactly one
process. -/
theorem depCheck_gates_spawn {table : List (String × List String)}
    {s : SysState} {l : Label} {s' : SysState} (a : String)
    (hstep : Step table s l s')
    (h1 : s.phase a ≠ Phase.running) (h2 : s'.phase a = Phase.running) :
    allDepsStarted table a s.startedAgents = true ∧
    (∀ d ∈ depsOf table a, s.startedAgents d = true) ∧
    s'.procCount a = s.procCount a + 1 := by
  cases hstep with
  | loopIter b ex _ hph hmem =>
      cases hbody : loopBody table b s.startedAgents ex with
      | waitDeps =>
          rw [show applyBody table b ex s = setPhase s b Phase.depSleep by
                simp [applyBody, hbody]] at h2
          rw [setPhase_phase] at h2
          by_cases hab : a = b
          · simp [hab] at h2
          · simp [hab] at h2
            exact absurd h2 h1
      | scriptMissing =>
          rw [show applyBody table b ex s = setPhase s b Phase.scriptSleep by
                simp [applyBody, hbody]] at h2
          rw [setPhase_phase] at h2
          by_cases hab : a = b
          · simp [hab] at h2
          · simp [hab] at h2
            exact absurd h2 h1
      | spawned =>
          rw [show applyBody table b ex s = spawnUpdate s b by
                simp [applyBody, hbody]] at h2 ⊢
          by_cases hab : a = b
          · subst hab
            have hdeps := (loopBody_eq_spawned.mp hbody).1
            refine ⟨hdeps, ?_, ?_⟩
            · intro d hd
              have := List.all_eq_true.mp hdeps
              exact this d hd
            · rw [spawnUpdate_procCount]
              simp
          · rw [spawnUpdate_phase] at h2
            simp [hab] at h2
            exact absurd h2 h1
  | wakeDep b _ hph =>
      rw [setPhase_phase] at h2
      by_cases hab : a = b
      · simp [hab] at h2
      · simp [hab] at h2
        exact absurd h2 h1
  | wakeScript b _ hph =>
      rw [setPhase_phase] at h2
      by_cases hab : a = b
      · simp [hab] at h2
      · simp [hab] at h2
        exact absurd h2 h1
  | procExit b code _ hph =>
      rw [exitUpdate_phase] at h2
      by_cases hab : a = b
      · simp [hab] at h2
      · simp [hab] at h2
        exact absurd h2 h1
  | wakeRestart b _ hph =>
      rw [setPhase_phase] at h2
      by_cases hab : a = b
      · simp [hab] at h2
      · simp [hab] at h2
        exact absurd h2 h1

/-- Witness for C1: the very first launch decision of `CORE` at the initial
state spawns it, and its (empty) dependency set is trivially live. -/
theorem depCheck_gates_spawn_witness :
    allDepsStarted DEPENDENCIES "CORE" initState.startedAgents = true ∧
    (∀ d ∈ depsOf DEPENDENCIES "CORE", initState.startedAgents d = true) ∧
    (applyBody DEPENDENCIES "CORE" true initState).procCount "CORE" =
      initState.procCount "CORE" + 1 :=
  depCheck_gates_spawn "CORE"
    (Step.loopIter "CORE" true initState rfl (by decide))
    (by decide) (by decide)

/-- A step that performs neither `startedAgents.add` nor
`startedAgents.delete` leaves the registry untouched. -/
theorem step_no_mut_preserves_registry {table : List (String × List String)}
    {s : SysState} {l : Label} {s' : SysState} (hstep : Step table s l s')
    (hnm : ¬ isRegistryMutation table s l) :
    s'.startedAgents = s.startedAgents := by
  cases hstep with
  | loopIter b ex _ hph hmem =>
      cases hbody : loopBody table b s.startedAgents ex with
      | waitDeps => simp [applyBody, hbody]
      | scriptMissing => simp [applyBody, hbody]
      | spawned => exact absurd hbody hnm
  | wakeDep b _ hph => rfl
  | wakeScript b _ hph => rfl
  | procExit b code _ hph => exact absurd trivial hnm
  | wakeRestart b _ hph => rfl

/-- Claim C9: `snapshot` is idempotent between registry mutations — any
sequence of steps that contains no `startedAgents.add` and no
`startedAgents.delete` leaves every read of the live registry identical. -/
theorem snapshot_idempotent {table : List (String × List String)}
    {s s' : SysState} (h : StepsNoMut table s s') :
    snapshot s' = snapshot s := by
  induction h with
  | refl s => rfl
  | cons hstep hnm _ ih =>
      exact ih.trans (step_no_mut_preserves_registry hstep hnm)

/-- Witness for C9: one non-mutating step (a dependency wait of `WAVE` at
the initial state) between two snapshots. -/
theorem snapshot_idempotent_witness :
    snapshot (applyBody DEPENDENCIES "WAVE" true initState) = snapshot initState :=
  snapshot_idempotent
    (StepsNoMut.cons (Step.loopIter "WAVE" true initState rfl (by decide))
      (by
        show loopBody DEPENDENCIES "WAVE" initState.startedAgents true ≠
          BodyOutcome.spawned
        decide)
      (StepsNoMut.refl _))

/-- Each loop owns at most one live child at a time: in every reachable
state the number of live process handles of an agent is `1` exactly when its
loop is suspended on the exit promise, and `0` otherwise. -/
theorem reachable_procCount {table : List (String × List String)}
    {s : SysState} (h : Reachable table s) (a : String) :
    s.procCount a = if s.phase a = Phase.running then 1 else 0 := by
  induction h with
  | init => rfl
  | @step s₀ l s₁ hr hstep ih =>
      cases hstep with
      | loopIter b ex _ hph hmem =>
          cases hbody : loopBody table b s₀.startedAgents ex with
          | waitDeps =>
              rw [show applyBody table b ex s₀ = setPhase s₀ b Phase.depSleep by
                    simp [applyBody, hbody]]
              rw [setPhase_procCount, setPhase_phase]
              by_cases hab : a = b
              · subst hab
                simp [ih, hph]
              · simp [hab, ih]
          | scriptMissing =>
              rw [show applyBody table b ex s₀ = setPhase s₀ b Phase.scriptSleep by
                    simp [applyBody, hbody]]
              rw [setPhase_procCount, setPhase_phase]
              by_cases hab : a = b
              · subst hab
                simp [ih, hph]
              · simp [hab, ih]
          | spawned =>
              rw [show applyBody table b ex s₀ = spawnUpdate s₀ b by
                    simp [applyBody, hbody]]
              rw [spawnUpdate_procCount, spawnUpdate_phase]
              by_cases hab : a = b
              · subst hab
                simp [ih, hph]
              · simp [hab, ih]
      | wakeDep b _ hph =>
          rw [setPhase_procCount, setPhase_phase]
          by_cases hab : a = b
          · subst hab
            simp [ih, hph]
          · simp [hab, ih]
      | wakeScript b _ hph =>
          rw [setPhase_procCount, setPhase_phase]
          by_cases hab : a = b
          · subst hab
            simp [ih, hph]
          · simp [hab, ih]
      | procExit b code _ hph =>
          rw [exitUpdate_procCount, exitUpdate_phase]
          by_cases hab : a = b
          · subst hab
            simp [ih, hph]
          · simp [hab, ih]
      | wakeRestart b _ hph =>
          rw [setPhase_procCount, setPhase_phase]
          by_cases hab : a = b
          · subst hab
            simp [ih, hph]
          · simp [hab, ih]

/-- Claim C2: at most one child process handle is live per worker, in every
reachable state of the supervisor — a loop can only spawn from the `waiting`
phase, which it re-enters only after the exit of its previous child. -/
theorem at_most_one_process {table : List (String × List String)}
    {s : SysState} (h : Reachable table s) (a : String) :
    s.procCount a ≤ 1 := by
  rw [reachable_procCount h a]
  split <;> simp

/-- Witness for C2: the state reached by launching `CORE` from the initial
state holds exactly one live handle for `CORE`. -/
theorem at_most_one_process_witness :
    (applyBody DEPENDENCIES "CORE" true initState).procCount "CORE" ≤ 1 :=
  at_most_one_process
    (Reachable.step Reachable.init
      (Step.loopIter "CORE" true initState rfl (by decide)))
    "CORE"

/-- Claim C4: the exit handler removes the worker from the live registry in
the same atomic segment that observes the exit — before the 2s restart timer
is even scheduled — so no later step can read the exited worker as live: the
name can only reappear through a subsequent loop iteration of that same
worker (a relaunch).  Any dependency check evaluated between the exit and
that relaunch therefore sees the worker as absent. -/
theorem exit_removes_before_restart {table : List (String × List String)} :
    (∀ (s : SysState) (a : String) (code : Int) (s' : SysState),
        Step table s (Label.procExit a code) s' →
        s'.startedAgents a = false ∧ s'.phase a = Phase.restartDelay) ∧
    (∀ (s : SysState) (l : Label) (s' : SysState) (a : String),
        Step table s l s' → s.startedAgents a = false →
        s'.startedAgents a = true → ∃ ex, l = Label.loopIter a ex) := by
  constructor
  · intro s a code s' hstep
    cases hstep
    constructor
    · rw [exitUpdate_startedAgents]
      simp
    · rw [exitUpdate_phase]
      simp
  · intro s l s' a hstep hfalse htrue
    cases hstep with
    | loopIter b ex _ hph hmem =>
        cases hbody : loopBody table b s.startedAgents ex with
        | waitDeps =>
            rw [show applyBody table b ex s = setPhase s b Phase.depSleep by
                  simp [applyBody, hbody], setPhase_startedAgents] at htrue
            simp [hfalse] at htrue
        | scriptMissing =>
            rw [show applyBody table b ex s = setPhase s b Phase.scriptSleep by
                  simp [applyBody, hbody], setPhase_startedAgents] at htrue
            simp [hfalse] at htrue
        | spawned =>
            rw [show applyBody table b ex s = spawnUpdate s b by
                  simp [applyBody, hbody], spawnUpdate_startedAgents] at htrue
            by_cases hab : a = b
            · exact ⟨ex, by rw [hab]⟩
            · rw [if_neg hab] at htrue
              simp [hfalse] at htrue
    | wakeDep b _ hph =>
        rw [setPhase_startedAgents] at htrue
        simp [hfalse] at htrue
    | wakeScript b _ hph =>
        rw [setPhase_startedAgents] at htrue
        simp [hfalse] at htrue
    | procExit b code _ hph =>
        rw [exitUpdate_startedAgents] at htrue
        by_cases hab : a = b
        · rw [if_pos hab] at htrue
          exact absurd htrue (by simp)
        · rw [if_neg hab] at htrue
          simp [hfalse] at htrue
    | wakeRestart b _ hph =>
        rw [setPhase_startedAgents] at htrue
        simp [hfalse] at htrue

/-- Witness for C4: `CORE` is launched from the initial state and then
exits; the exit step leaves it absent from the registry with its restart
delay just begun, and the only way its membership flips back to true is one
of its own loop iterations. -/
theorem exit_removes_before_restart_witness :
    ((exitUpdate (applyBody DEPENDENCIES "CORE" true initState)
        "CORE").startedAgents "CORE" = false ∧
      (exitUpdate (applyBody DEPENDENCIES "CORE" true initState)
        "CORE").phase "CORE" = Phase.restartDelay) ∧
    ∃ ex, Label.loopIter "CORE" true = Label.loopIter "CORE" ex :=
  ⟨(@exit_removes_before_restart DEPENDENCIES).1
      (applyBody DEPENDENCIES "CORE" true initState) "CORE" 0 _
      (Step.procExit "CORE" 0 (applyBody DEPENDENCIES "CORE" true initState)
        (by decide)),
   (@exit_removes_before_restart DEPENDENCIES).2 initState
      (Label.loopIter "CORE" true)
      (applyBody DEPENDENCIES "CORE" true initState) "CORE"
      (Step.loopIter "CORE" true initState rfl (by decide)) rfl (by decide)⟩

/-- Claim C6: the live registry is only ever mutated by the owning loop —
any step that changes agent `a`'s membership is a step of agent `a`'s own
loop; a spawning iteration of `a` adds `a` in the same atomic segment as the
launch, and the exit event of `a`'s process removes `a` in the same atomic
segment, whatever the exit code. -/
theorem registry_owner_mutation {table : List (String × List String)}
    {s : SysState} {l : Label} {s' : SysState} (hstep : Step table s l s')
    (a : String) :
    (s'.startedAgents a ≠ s.startedAgents a → Label.agent l = a) ∧
    (∀ ex, l = Label.loopIter a ex →
        loopBody table a s.startedAgents ex = BodyOutcome.spawned →
        s'.startedAgents a = true ∧ s'.phase a = Phase.running) ∧
    (∀ code, l = Label.procExit a code → s'.startedAgents a = false) := by
  cases hstep with
  | loopIter b ex _ hph hmem =>
      refine ⟨?_, ?_, ?_⟩
      · intro hne
        by_cases hab : b = a
        · exact hab
        · exfalso
          apply hne
          cases hbody : loopBody table b s.startedAgents ex with
          | waitDeps =>
              rw [show applyBody table b ex s = setPhase s b Phase.depSleep by
                    simp [applyBody, hbody], setPhase_startedAgents]
          | scriptMissing =>
              rw [show applyBody table b ex s = setPhase s b Phase.scriptSleep by
                    simp [applyBody, hbody], setPhase_startedAgents]
          | spawned =>
              rw [show applyBody table b ex s = spawnUpdate s b by
                    simp [applyBody, hbody], spawnUpdate_startedAgents]
              rw [if_neg (fun h => hab h.symm)]
      · intro ex' heq hbody
        injection heq with hb hex
        subst hb
        subst hex
        rw [show applyBody table b ex s = spawnUpdate s b by
              simp [applyBody, hbody]]
        rw [spawnUpdate_startedAgents, spawnUpdate_phase]
        simp
      · intro code heq
        simp at heq
  | wakeDep b _ hph =>
      refine ⟨fun hne => absurd rfl hne, ?_, ?_⟩
      · intro ex heq
        simp at heq
      · intro code heq
        simp at heq
  | wakeScript b _ hph =>
      refine ⟨fun hne => absurd rfl hne, ?_, ?_⟩
      · intro ex heq
        simp at heq
      · intro code heq
        simp at heq
  | procExit b code _ hph =>
      refine ⟨?_, ?_, ?_⟩
      · intro hne
        by_cases hab : b = a
        · exact hab
        · exfalso
          apply hne
          rw [exitUpdate_startedAgents, if_neg (fun h => hab h.symm)]
      · intro ex heq
        simp at heq
      · intro code' heq
        injection heq with hb hcode
        subst hb
        rw [exitUpdate_startedAgents]
        simp
  | wakeRestart b _ hph =>
      refine ⟨fun hne => absurd rfl hne, ?_, ?_⟩
      · intro ex heq
        simp at heq
      · intro code heq
        simp at heq

/-- Witness for C6: the spawning iteration of `CORE` at the initial state
adds `CORE` to the registry and leaves it running. -/
theorem registry_owner_mutation_witness :
    (applyBody DEPENDENCIES "CORE" true initState).startedAgents "CORE" = true ∧
    (applyBody DEPENDENCIES "CORE" true initState).phase "CORE" = Phase.running :=
  (registry_owner_mutation
      (Step.loopIter "CORE" true initState rfl (by decide)) "CORE").2.1
    true rfl (by decide)

/-- Environment assumption for a worker whose launch target never exists:
every `fs.existsSync` answer its loop ever observes is `false`. -/
def neverEx (a : String) (l : Label) : Prop :=
  ∀ ex, l = Label.loopIter a ex → ex = false

/-- Invariant under a never-existing launch target: the worker is never in
the registry, owns no process, and its loop only ever occupies the waiting,
dependency-sleep or script-retry phases. -/
theorem missing_script_inv {table : List (String × List String)} {a : String}
    {s : SysState} (h : ReachableW table (neverEx a) s) :
    s.startedAgents a = false ∧ s.procCount a = 0 ∧
      (s.phase a = Phase.waiting ∨ s.phase a = Phase.depSleep ∨
        s.phase a = Phase.scriptSleep) := by
  induction h with
  | init => exact ⟨rfl, rfl, Or.inl rfl⟩
  | @step s₀ l s₁ hr hstep hP ih =>
      obtain ⟨ih1, ih2, ih3⟩ := ih
      cases hstep with
      | loopIter b ex _ hph hmem =>
          by_cases hab : b = a
          · subst hab
            have hex : ex = false := hP ex rfl
            subst hex
            cases hbody : loopBody table b s₀.startedAgents false with
            | waitDeps =>
                rw [show applyBody table b false s₀ = setPhase s₀ b Phase.depSleep by
                      simp [applyBody, hbody]]
                refine ⟨ih1, ih2, Or.inr (Or.inl ?_)⟩
                rw [setPhase_phase, if_pos rfl]
            | scriptMissing =>
                rw [show applyBody table b false s₀ = setPhase s₀ b Phase.scriptSleep by
                      simp [applyBody, hbody]]
                refine ⟨ih1, ih2, Or.inr (Or.inr ?_)⟩
                rw [setPhase_phase, if_pos rfl]
            | spawned =>
                exact absurd (loopBody_eq_spawned.mp hbody).2 (by simp)
          · have hba : a ≠ b := fun h => hab h.symm
            cases hbody : loopBody table b s₀.startedAgents ex with
            | waitDeps =>
                rw [show applyBody table b ex s₀ = setPhase s₀ b Phase.depSleep by
                      simp [applyBody, hbody]]
                refine ⟨ih1, ih2, ?_⟩
                rw [setPhase_phase, if_neg hba]
                exact ih3
            | scriptMissing =>
                rw [show applyBody table b ex s₀ = setPhase s₀ b Phase.scriptSleep by
                      simp [applyBody, hbody]]
                refine ⟨ih1, ih2, ?_⟩
                rw [setPhase_phase, if_neg hba]
                exact ih3
            | spawned =>
                rw [show applyBody table b ex s₀ = spawnUpdate s₀ b by
                      simp [applyBody, hbody]]
                refine ⟨?_, ?_, ?_⟩
                · rw [spawnUpdate_startedAgents, if_neg hba]
                  exact ih1
                · rw [spawnUpdate_procCount, if_neg hba]
                  exact ih2
                · rw [spawnUpdate_phase, if_neg hba]
                  exact ih3
      | wakeDep b _ hph =>
          refine ⟨ih1, ih2, ?_⟩
          rw [setPhase_phase]
          by_cases hab : a = b
          · rw [if_pos hab]
            exact Or.inl rfl
          · rw [if_neg hab]
            exact ih3
      | wakeScript b _ hph =>
          refine ⟨ih1, ih2, ?_⟩
          rw [setPhase_phase]
          by_cases hab : a = b
          · rw [if_pos hab]
            exact Or.inl rfl
          · rw [if_neg hab]
            exact ih3
      | procExit b code _ hph =>
          have hba : a ≠ b := by
            intro h
            rw [← h] at hph
            rcases ih3 with h3 | h3 | h3 <;> rw [h3] at hph <;> exact absurd hph (by simp)
          refine ⟨?_, ?_, ?_⟩
          · rw [exitUpdate_startedAgents, if_neg hba]
            exact ih1
          · rw [exitUpdate_procCount, if_neg hba]
            exact ih2
          · rw [exitUpdate_phase, if_neg hba]
            exact ih3
      | wakeRestart b _ hph =>
          have hba : a ≠ b := by
            intro h
            rw [← h] at hph
            rcases ih3 with h3 | h3 | h3 <;> rw [h3] at hph <;> exact absurd hph (by simp)
          refine ⟨ih1, ih2, ?_⟩
          rw [setPhase_phase, if_neg hba]
          exact ih3

/-- Claim C8: a worker whose launch target never exists never becomes live —
along any trace in which its loop's every `existsSync` observation is
`false`, the worker is absent from the registry, is never in the running
phase, owns no process, and its loop never terminates: some step of that
worker's own loop (a retry of the dependency wait or of the logged 5s
script-missing wait) is always enabled. -/
theorem missing_script_never_live {table : List (String × List String)}
    {a : String} {s : SysState}
    (hreach : ReachableW table (neverEx a) s) (hmem : a ∈ objectKeys table) :
    s.startedAgents a = false ∧ s.phase a ≠ Phase.running ∧
      s.procCount a = 0 ∧
      ∃ l s', Step table s l s' ∧ Label.agent l = a := by
  obtain ⟨h1, h2, h3⟩ := missing_script_inv hreach
  refine ⟨h1, ?_, h2, ?_⟩
  · rcases h3 with h | h | h <;> rw [h] <;> simp
  · rcases h3 with h | h | h
    · exact ⟨Label.loopIter a false, applyBody table a false s,
        Step.loopIter a false s h hmem, rfl⟩
    · exact ⟨Label.wakeDep a, setPhase s a Phase.waiting,
        Step.wakeDep a s h, rfl⟩
    · exact ⟨Label.wakeScript a, setPhase s a Phase.waiting,
        Step.wakeScript a s h, rfl⟩

/-- Witness for C8: `CORE` after one loop iteration that found its launch
target missing (its dependency set is empty, so the iteration reached the
script check, logged and entered the 5s retry sleep). -/
theorem missing_script_never_live_witness :
    (applyBody DEPENDENCIES "CORE" false initState).startedAgents "CORE" = false ∧
    (applyBody DEPENDENCIES "CORE" false initState).phase "CORE" ≠ Phase.running ∧
    (applyBody DEPENDENCIES "CORE" false initState).procCount "CORE" = 0 ∧
    ∃ l s', Step DEPENDENCIES (applyBody DEPENDENCIES "CORE" false initState) l s' ∧
      Label.agent l = "CORE" :=
  missing_script_never_live
    (ReachableW.step ReachableW.init
      (Step.loopIter "CORE" false initState rfl (by decide))
      (fun ex heq => by injection heq with h1 h2; exact h2.symm))
    (by decide)

/-! ### C3: graph construction performs no cycle validation -/

/-- A two-element dependency table with a cycle: `A` depends on `B` and `B`
depends on `A`. -/
def cyclicTable : List (String × List String) :=
  [("A", ["B"]), ("B", ["A"])]

/-- In every reachable state of the supervisor run on the cyclic table,
neither worker on the cycle has ever launched: each one's dependency check
reads the other's (always-false) membership, so both wait forever. -/
theorem cyclic_table_deadlock {s : SysState} (h : Reachable cyclicTable s) :
    s.startedAgents "A" = false ∧ s.startedAgents "B" = false ∧
      s.phase "A" ≠ Phase.running ∧ s.phase "B" ≠ Phase.running := by
  induction h with
  | init => exact ⟨rfl, rfl, by simp [initState], by simp [initState]⟩
  | @step s₀ l s₁ hr hstep ih =>
      obtain ⟨ihA, ihB, ihpA, ihpB⟩ := ih
      cases hstep with
      | loopIter b ex _ hph hmem =>
          have hb : b = "A" ∨ b = "B" := by
            simpa [cyclicTable, objectKeys] using hmem
          have hbody : loopBody cyclicTable b s₀.startedAgents ex =
              BodyOutcome.waitDeps := by
            apply loopBody_eq_waitDeps.mpr
            rcases hb with hb | hb <;> subst hb
            · have hA : allDepsStarted cyclicTable "A" s₀.startedAgents =
                  (s₀.startedAgents "B" && true) := rfl
              rw [hA, ihB]
              rfl
            · have hB : allDepsStarted cyclicTable "B" s₀.startedAgents =
                  (s₀.startedAgents "A" && true) := rfl
              rw [hB, ihA]
              rfl
          rw [show applyBody cyclicTable b ex s₀ = setPhase s₀ b Phase.depSleep by
                simp [applyBody, hbody]]
          refine ⟨ihA, ihB, ?_, ?_⟩
          · rw [setPhase_phase]
            split
            · simp
            · exact ihpA
          · rw [setPhase_phase]
            split
            · simp
            · exact ihpB
      | wakeDep b _ hph =>
          refine ⟨ihA, ihB, ?_, ?_⟩ <;> rw [setPhase_phase] <;> split
          · simp
          · exact ihpA
          · simp
          · exact ihpB
      | wakeScript b _ hph =>
          refine ⟨ihA, ihB, ?_, ?_⟩ <;> rw [setPhase_phase] <;> split
          · simp
          · exact ihpA
          · simp
          · exact ihpB
      | procExit b code _ hph =>
          refine ⟨?_, ?_, ?_, ?_⟩
          · rw [exitUpdate_startedAgents]
            split
            · rfl
            · exact ihA
          · rw [exitUpdate_startedAgents]
            split
            · rfl
            · exact ihB
          · rw [exitUpdate_phase]
            split
            · simp
            · exact ihpA
          · rw [exitUpdate_phase]
            split
            · simp
            · exact ihpB
      | wakeRestart b _ hph =>
          refine ⟨ihA, ihB, ?_, ?_⟩ <;> rw [setPhase_phase] <;> split
          · simp
          · exact ihpA
          · simp
          · exact ihpB

/-- Counterexample to C3 as stated: `cyclicTable` contains a cycle, yet
graph construction succeeds (it is the static table plus `Object.keys`,
with no validation and no failure path), and the supervisor proceeds to run
its loops — here the first loop iteration of `A` — instead of refusing to
start with a configuration error. -/
theorem cycle_construction_counterexample :
    hasCycle cyclicTable = true ∧
    buildGraph cyclicTable = ["A", "B"] ∧
    Step cyclicTable initState (Label.loopIter "A" true)
      (applyBody cyclicTable "A" true initState) :=
  ⟨rfl, rfl, Step.loopIter "A" true initState rfl (by decide)⟩

/-- Claim C3 (amended): graph construction never validates and never fails
— for every table, cyclic or not, it succeeds and yields the key list; the
shipped `DEPENDENCIES` table happens to be acyclic; and a cyclic table does
not produce a construction-time configuration error but a runtime deadlock:
the supervisor starts, and the workers on the cycle wait forever without
ever launching. -/
theorem construction_never_fails_cycle_waits :
    (∀ table : List (String × List String), buildGraph table = objectKeys table) ∧
    hasCycle DEPENDENCIES = false ∧
    hasCycle cyclicTable = true ∧
    (∀ s : SysState, Reachable cyclicTable s →
        s.startedAgents "A" = false ∧ s.startedAgents "B" = false ∧
          s.phase "A" ≠ Phase.running ∧ s.phase "B" ≠ Phase.running) :=
  ⟨fun _ => rfl, by decide, by decide, fun _ h => cyclic_table_deadlock h⟩

/-- Witness for the amended C3 at a concrete state: the initial state of
the cyclic-table run already satisfies the deadlock invariant. -/
theorem construction_never_fails_cycle_waits_witness :
    initState.startedAgents "A" = false ∧ initState.phase "A" ≠ Phase.running :=
  ⟨(construction_never_fails_cycle_waits.2.2.2 initState Reachable.init).1,
   (construction_never_fails_cycle_waits.2.2.2 initState Reachable.init).2.2.1⟩

end AiRunlevel
